import Mathlib

/-!
# Verification of the shenv typed-value classifier and environment snapshot model

Shallow embedding of `src/shenv/__init__.py`:

* `parse_str` — the string-to-semantic-type classifier cascade;
* `EnvBase.as_int` — the name-aware integer override;
* `parse_env` — the standalone one-variable lookup helper;
* the `EnvBase` dataclass attribute protocol (`__getattribute__`,
  `__getattr__`, `__getitem__`, `__contains__`, dataclass construction),
  modelled with an explicit recursion-depth fuel so that Python's
  `RecursionError` is representable;
* `pathlib.PurePosixPath` construction/normalization (the `Path(...)`
  fallback import used by the module) and the CPython `ipaddress`
  string parsers, which the cascade calls.

Python strings are modelled as Lean `String`s.  The character-class
helpers (`str.lower`, `str.isnumeric`, `int(...)`) are modelled on the
ASCII fragment extended with a few representative non-decimal Unicode
numerics (so that the `int()` error path on `str.isnumeric`-true input
exists in the model); Python's full Unicode tables are larger.  The
external `furl` library is modelled as a fragment (`furlParse`) that
keeps its documented `ValueError` path: the `urlsplit` bracket
validation and the port validation.
-/

deriving instance DecidableEq for Except

/-- Python exceptions that the modelled code can raise. -/
inductive PyExc where
  | indexError
  | attributeError
  | recursionError
  | valueError
deriving DecidableEq, Repr

/-- An IP address value as returned by `ipaddress.ip_address`:
either an `IPv4Address` (32-bit integer) or an `IPv6Address`
(128-bit integer plus optional scope id). -/
inductive IPAddr where
  | v4 : Nat → IPAddr
  | v6 : Nat → Option String → IPAddr
deriving DecidableEq, Repr

/-- A `pathlib.PurePosixPath`: the number of leading root slashes kept by
pathlib (0, 1, or 2 — three or more leading slashes collapse to one) and
the normalized list of path segments (empty and `"."` segments dropped). -/
@[ext]
structure PyPath where
  root : Nat
  segs : List (List Char)
deriving DecidableEq, Repr

/-- The tagged union of classification results (§3 of the spec):
boolean, URL (`furl(data)`, modelled as carrying the original text),
filesystem path, IP address, integer, or plain string. -/
inductive Value where
  | bool : Bool → Value
  | url : String → Value
  | path : PyPath → Value
  | ip : IPAddr → Value
  | int : Nat → Value
  | str : String → Value
deriving DecidableEq, Repr

/-- `str.lower` on one character (ASCII fragment). -/
def pyLowerChar (c : Char) : Char :=
  if 'A' ≤ c ∧ c ≤ 'Z' then Char.ofNat (c.toNat + 32) else c

/-- Python `data.lower()` (ASCII fragment). -/
def pyLowerStr (s : String) : String :=
  String.mk (s.data.map pyLowerChar)

/-- Does `l` start with `pat`? -/
def listStartsWith : List Char → List Char → Bool
  | _, [] => true
  | [], _ :: _ => false
  | c :: cs, p :: ps => c = p && listStartsWith cs ps

/-- Does `pat` occur as a contiguous run inside `l`? -/
def listHasInfix : List Char → List Char → Bool
  | [], pat => pat.isEmpty
  | c :: rest, pat => listStartsWith (c :: rest) pat || listHasInfix rest pat

/-- Python substring containment `pat in s`. -/
def strContains (s pat : String) : Bool :=
  listHasInfix s.data pat.data

/-- Python `key.endswith(item)`. -/
def strEndsWith (key item : String) : Bool :=
  listStartsWith key.data.reverse item.data.reverse

/-- Characters that Python `str.isnumeric` accepts but `int()` rejects,
as an explicit representative fragment (vulgar fractions and
superscript digits); Python's full table of non-decimal Unicode
numerics is larger. -/
def PY_NUMERIC_NON_DECIMAL : List Char :=
  ['\u00bd', '\u00bc', '\u00be', '\u00b9', '\u00b2', '\u00b3']

/-- Is `c` numeric for Python `str.isnumeric` (fragment: ASCII decimal
digits plus the representative non-decimal numerics)? -/
def pyNumericChar (c : Char) : Bool :=
  c.isDigit || PY_NUMERIC_NON_DECIMAL.contains c

/-- Python `str.isnumeric` (fragment): non-empty and all characters
numeric. -/
def pyIsnumeric (s : String) : Bool :=
  !s.data.isEmpty && s.data.all pyNumericChar

/-- Python `int(s)`: succeeds on non-empty strings of decimal digits,
raises `ValueError` otherwise — in particular on `str.isnumeric`-true
strings of non-decimal numerics such as `"\u00bd"`. -/
def pyIntParse (s : String) : Option Nat :=
  if !s.data.isEmpty && s.data.all Char.isDigit then
    some (s.data.foldl (fun n c => 10 * n + (c.toNat - 48)) 0)
  else none

/-- Python `int(s)` on a string already known to be decimal digits
(used for IPv4 octets). -/
def pyInt (s : String) : Nat :=
  s.data.foldl (fun n c => 10 * n + (c.toNat - 48)) 0

/-- Split a character list at `'/'` separators, Python `s.split('/')`
style: `splitSlash [] = [[]]`, and every separator starts a new piece. -/
def splitSlash : List Char → List (List Char)
  | [] => [[]]
  | c :: rest =>
    if c = '/' then [] :: splitSlash rest
    else (c :: (splitSlash rest).headD []) :: (splitSlash rest).tail

/-- Join pieces with `'/'` separators (inverse of `splitSlash` on
slash-free pieces). -/
def joinSlash : List (List Char) → List Char
  | [] => []
  | [p] => p
  | p :: q :: rest => p ++ '/' :: joinSlash (q :: rest)

/-- The root kept by `pathlib`'s POSIX flavour: exactly two leading
slashes keep `//`, any other positive number of leading slashes keeps
`/`, otherwise no root. -/
def rootOf (l : List Char) : Nat :=
  if listStartsWith l ['/', '/', '/'] then 1
  else if listStartsWith l ['/', '/'] then 2
  else if listStartsWith l ['/'] then 1
  else 0

/-- `pathlib.PurePosixPath(s)`: parse a string into a path, dropping
empty and `"."` segments. -/
def pathParse (s : String) : PyPath :=
  ⟨rootOf s.data, (splitSlash s.data).filter (fun p => (p != []) && (p != ['.']))⟩

/-- `str(p)` for a `PurePosixPath`: the root slashes followed by the
segments joined with `/`; the empty relative path renders as `"."`. -/
def pathToStr (p : PyPath) : String :=
  if p.root = 0 ∧ p.segs = [] then "."
  else String.mk (List.replicate p.root '/' ++ joinSlash p.segs)

/-- Python `s.split(sep)` on the character level, for a one-character
separator: the empty string splits to `[[]]`, and every separator
starts a new piece. -/
def splitChar (sep : Char) : List Char → List (List Char)
  | [] => [[]]
  | c :: rest =>
    if c = sep then [] :: splitChar sep rest
    else (c :: (splitChar sep rest).headD []) :: (splitChar sep rest).tail

/-- Python `s.split(sep)` for a one-character separator. -/
def pySplit (s : String) (sep : Char) : List String :=
  (splitChar sep s.data).map String.mk

/-- CPython `ipaddress._parse_octet`: 1–3 ASCII digits, no leading zero,
value at most 255. -/
def parseOctet (s : String) : Option Nat :=
  if s.data.isEmpty then none
  else if !s.data.all Char.isDigit then none
  else if s.data.length > 3 then none
  else if s.data.length > 1 && s.data.headD ' ' = '0' then none
  else
    let n := pyInt s
    if n > 255 then none else some n

/-- CPython `IPv4Address._ip_int_from_string`: exactly four octets
separated by dots. -/
def ipv4FromString (s : String) : Option Nat :=
  if s = "" then none
  else
    let octets := pySplit s '.'
    if octets.length ≠ 4 then none
    else
      match octets.mapM parseOctet with
      | none => none
      | some l => some (l.foldl (fun a o => a * 256 + o) 0)

/-- Lowercase hex digit character for a value below 16. -/
def hexDigitChar (n : Nat) : Char :=
  if n < 10 then Char.ofNat (48 + n) else Char.ofNat (87 + n)

/-- Python `'%x' % n`: lowercase hexadecimal rendering, `0` rendered
as `"0"`. -/
def toHexStr (n : Nat) : String :=
  String.mk (Nat.toDigits 16 n)

/-- Is `c` one of Python's `string.hexdigits`? -/
def isHexDigitChar (c : Char) : Bool :=
  c.isDigit || ('a' ≤ c && c ≤ 'f') || ('A' ≤ c && c ≤ 'F')

/-- Numeric value of a hex digit character. -/
def hexDigitVal (c : Char) : Nat :=
  if c.isDigit then c.toNat - 48
  else if 'a' ≤ c && c ≤ 'f' then c.toNat - 87
  else c.toNat - 55

/-- CPython `IPv6Address._parse_hextet`: 1–4 hex digit characters. -/
def parseHextet (s : String) : Option Nat :=
  if s.data.isEmpty then none
  else if !s.data.all isHexDigitChar then none
  else if s.data.length > 4 then none
  else some (s.data.foldl (fun a c => a * 16 + hexDigitVal c) 0)

/-- Fold a list of parsed hextets onto an accumulator, 16 bits each. -/
def foldHextets (l : List Nat) (acc : Nat) : Nat :=
  l.foldl (fun a h => a * 65536 + h) acc

/-- CPython `IPv6Address._ip_int_from_string` (scope id already split
off): split on `':'`, at least 3 parts, optional embedded IPv4 in the
last part, at most one run of `'::'` (an interior empty part), and the
remaining parts parsed as 16-bit hextets filling 8 groups. -/
def ipv6FromString (s : String) : Option Nat :=
  if s = "" then none
  else
    let parts := pySplit s ':'
    if parts.length < 3 then none
    else
      let withV4 : Option (List String) :=
        match parts.getLast? with
        | none => none
        | some lastPart =>
          if strContains lastPart "." then
            match ipv4FromString lastPart with
            | none => none
            | some v4 =>
              some (parts.dropLast ++ [toHexStr (v4 / 65536), toHexStr (v4 % 65536)])
          else some parts
      match withV4 with
      | none => none
      | some parts =>
        if parts.length > 9 then none
        else
          let n := parts.length
          let interiorEmpty :=
            (List.range n).filter (fun i => 0 < i && i < n - 1 && parts.getD i " " = "")
          match interiorEmpty with
          | [] =>
            -- no '::': exactly 8 parts, none of them empty at the ends
            if n ≠ 8 then none
            else if parts.getD 0 " " = "" then none
            else if parts.getLastD " " = "" then none
            else
              match parts.mapM parseHextet with
              | none => none
              | some l => some (foldHextets l 0)
          | [i] =>
            -- one '::' at interior index i
            let partsHi := if parts.getD 0 " " = "" then i - 1 else i
            let partsLo :=
              if parts.getLastD " " = "" then n - i - 2 else n - i - 1
            if parts.getD 0 " " = "" && partsHi ≠ 0 then none
            else if parts.getLastD " " = "" && partsLo ≠ 0 then none
            else
              let skipped := 8 - (partsHi + partsLo)
              if 8 ≤ partsHi + partsLo then none
              else
                match (parts.take partsHi).mapM parseHextet,
                      (parts.drop (n - partsLo)).mapM parseHextet with
                | some his, some los =>
                  some (foldHextets los (foldHextets his 0 * 65536 ^ skipped))
                | _, _ => none
          | _ => none

/-- Split off an IPv6 scope id at the first `'%'`, CPython
`str.partition('%')` as used by `IPv6Address.__init__`; the scope id
must be non-empty and contain no further `'%'`. -/
def splitScope (l : List Char) : List Char × Option (List Char) :=
  match l with
  | [] => ([], none)
  | c :: rest =>
    if c = '%' then ([], some rest)
    else
      let r := splitScope rest
      (c :: r.fst, r.snd)

/-- CPython `IPv6Address.__init__` on a string: handle the optional
`%scope` suffix, then parse the address part. -/
def ipv6Address (s : String) : Option IPAddr :=
  match splitScope s.data with
  | (addr, none) => (ipv6FromString (String.mk addr)).map (fun n => .v6 n none)
  | (addr, some scope) =>
    if scope.isEmpty || scope.contains '%' then none
    else (ipv6FromString (String.mk addr)).map
      (fun n => .v6 n (some (String.mk scope)))

/-- CPython `ipaddress.ip_address`: try IPv4 first, then IPv6. -/
def ip_address (s : String) : Option IPAddr :=
  match ipv4FromString s with
  | some n => some (.v4 n)
  | none => ipv6Address s

/-- Split a character list at the first occurrence of `sep`:
`some (before, after)`, or `none` when `sep` does not occur. -/
def splitFirst (sep : Char) : List Char → Option (List Char × List Char)
  | [] => none
  | c :: rest =>
    if c = sep then some ([], rest)
    else (splitFirst sep rest).map (fun pr => (c :: pr.fst, pr.snd))

/-- The prefix of `l` before the first character in `stops`. -/
def takeUntil (stops : List Char) : List Char → List Char
  | [] => []
  | c :: rest => if stops.contains c then [] else c :: takeUntil stops rest

/-- The suffix of `l` after the last occurrence of `sep` (all of `l`
when `sep` does not occur), Python `l.rsplit(sep, 1)[-1]`. -/
def afterLast (sep : Char) (l : List Char) : List Char :=
  (l.reverse.takeWhile (fun c => c ≠ sep)).reverse

/-- Valid URL scheme character after the first (`urlsplit`). -/
def schemeChar (c : Char) : Bool :=
  c.isAlphanum || c = '+' || c = '-' || c = '.'

/-- Numeric value of a decimal-digit character list. -/
def digitsVal (l : List Char) : Nat :=
  l.foldl (fun n c => 10 * n + (c.toNat - 48)) 0

/-- Fragment model of the external `furl` library's `furl(data)`
constructor (furl is an external collaborator, not part of `src/`):
`some` of the original text when accepted, `none` when it raises
`ValueError`.  Modelled error paths, from furl's documented behavior
and CPython `urlsplit`: (1) `urlsplit` raises `"Invalid IPv6 URL"` when
the netloc contains `'['` without `']'` or vice versa; (2) furl's
netloc setter raises `"Invalid port"` when the netloc carries a port
that is not a decimal number in 1..65535 (an empty port, or a `':'`
inside an IPv6 bracket, is not a port).  The netloc is the span between
a leading `'//'` (after an optional valid `scheme:` prefix) and the
next `'/'`, `'?'` or `'#'`; userinfo before the last `'@'` is skipped.
Host-character validation performed by some furl versions, and any
deeper URL structure, are not modelled — accepted URLs carry their
original text. -/
def furlParse (s : String) : Option String :=
  let l := s.data
  let rest : List Char :=
    match splitFirst ':' l with
    | some (sch, r) =>
      if !sch.isEmpty && (sch.headD ' ').isAlpha && sch.all schemeChar then r
      else l
    | none => l
  let netloc : List Char :=
    match rest with
    | '/' :: '/' :: r => takeUntil ['/', '?', '#'] r
    | _ => []
  if (netloc.contains '[' && !netloc.contains ']') ||
      (netloc.contains ']' && !netloc.contains '[') then none
  else
    let hostport := afterLast '@' netloc
    if hostport.contains ':' then
      let portCand := afterLast ':' hostport
      if portCand.contains ']' then some s
      else if portCand.isEmpty then some s
      else if portCand.all Char.isDigit && 0 < digitsVal portCand &&
          digitsVal portCand ≤ 65535 then some s
      else none
    else some s

/-- `parse_str` from `src/shenv/__init__.py`: the classifier cascade.
The `elif data[0] in ['/', '~', '.']` test raises `IndexError` when
`data` is the empty string (nothing earlier in the chain matches it);
`furl(data)` raises `ValueError` on malformed URLs, and `int(data)`
raises `ValueError` on numeric-but-not-decimal strings. -/
def parse_str (data : String) : Except PyExc Value :=
  if pyLowerStr data ∈ (["1", "true", "yes", "on"] : List String) then
    .ok (.bool true)
  else if pyLowerStr data ∈ (["0", "false", "no", "off"] : List String) then
    .ok (.bool false)
  else if strContains data "://" || strContains data "@" then
    match furlParse data with
    | some u => .ok (.url u)
    | none => .error .valueError
  else
    match data.data.head? with
    | none => .error .indexError
    | some c =>
      if (c = '/' || c = '~' || c = '.') && !strContains data ":" then
        .ok (.path (pathParse data))
      else
        match ip_address data with
        | some a => .ok (.ip a)
        | none =>
          if pyIsnumeric data then
            match pyIntParse data with
            | some n => .ok (.int n)
            | none => .error .valueError
          else .ok (.str data)

/-- The fixed always-integer key names `ENV_PARSE_AS_INT_NAME`. -/
def ENV_PARSE_AS_INT_NAME : List String :=
  ["GIT_MERGE_VERBOSITY", "PID", "PPID"]

/-- The fixed integer-forcing key suffixes `ENV_PARSE_AS_INT_SUFFIX`. -/
def ENV_PARSE_AS_INT_SUFFIX : List String :=
  ["_ATTEMPT", "_ID", "_GID", "_JOBS", "_NUMBER", "_PORT", "_UID"]

/-- `EnvBase.as_int`: force integer interpretation when the value is
non-empty, the key is in the always-integer set or ends with an
integer-forcing suffix, and the value is entirely numeric; otherwise
delegate to `parse_str`. -/
def EnvBase.as_int (key : String) (value : String) : Except PyExc Value :=
  let convert : Bool :=
    if value ≠ "" then
      if key ∈ ENV_PARSE_AS_INT_NAME then true
      else ENV_PARSE_AS_INT_SUFFIX.any (fun item => strEndsWith key item)
    else false
  if convert && pyIsnumeric value then
    match pyIntParse value with
    | some n => .ok (.int n)
    | none => .error .valueError
  else parse_str value

/-- `os.environ.get(name)` over an explicit environment table. -/
def envGet (environ : List (String × String)) (name : String) : Option String :=
  (environ.find? (fun kv => kv.fst == name)).map (·.snd)

/-- `parse_env` from `src/shenv/__init__.py`: `if value :=
os.environ.get(name): return EnvBase.as_int(name, value)` followed by
`return value` — a falsy lookup result (absent, or the empty string) is
returned as-is, without classification. -/
def parse_env (environ : List (String × String)) (name : String) :
    Except PyExc (Option Value) :=
  match envGet environ name with
  | some value =>
    if value ≠ "" then (EnvBase.as_int name value).map some
    else .ok (some (.str value))
  | none => .ok none

/-! ## The `EnvBase` snapshot attribute protocol

`EnvBase` stores the classified environment in the instance `__dict__`
and overrides `__getattribute__`, `__getattr__`, `__getitem__` and
`__contains__`.  The override

```
def __getattribute__(self, name):
    if hasattr(self, name):
        return super().__getattribute__(name)
    return None
```

re-enters itself: `hasattr(self, name)` runs the full attribute
protocol, which starts at this very `__getattribute__`.  We model the
protocol with an explicit recursion-depth fuel; Python's recursion
limit is the fuel running out, which raises `RecursionError` (and
`hasattr` only swallows `AttributeError`, so a `RecursionError`
propagates to the caller). -/

/-- The instance `__dict__` of an `EnvBase` object. -/
abbrev Attrs := List (String × Value)

/-- `object.__getattribute__` restricted to instance-`__dict__` names:
the stored value when present, otherwise `AttributeError`.  (Type-level
methods are not modelled; the theorems below show this branch is never
reached.) -/
def objectGetattr (d : Attrs) (name : String) : Except PyExc Value :=
  match (d.find? (fun kv => kv.fst == name)).map (·.snd) with
  | some v => .ok v
  | none => .error .attributeError

/-- The overridden `EnvBase.__getattribute__`, with `fuel` bounding the
remaining recursion depth.  `hasattr(self, name)` evaluates the full
attribute protocol one frame deeper: `__getattribute__` itself, falling
back to `__getattr__` on `AttributeError`; the body of `__getattr__`
begins with `if name in self`, whose `item in self.__dict__` is again an
instance attribute access re-entering `__getattribute__`. -/
def getattributeF : Nat → Attrs → String → Except PyExc (Option Value)
  | 0, _, _ => .error .recursionError
  | fuel + 1, d, name =>
    let inner : Except PyExc (Option Value) :=
      match getattributeF fuel d name with
      | .error .attributeError =>
        match getattributeF fuel d "__dict__" with
        | .error e => .error e
        | .ok _ => .ok ((d.find? (fun kv => kv.fst == name)).map (·.snd))
      | r => r
    match inner with
    | .error .attributeError => .ok none
    | .error e => .error e
    | .ok _ => (objectGetattr d name).map some

/-- The body of `EnvBase.__getattr__` called directly: `if name in
self: return self.__dict__[name]` followed by `return None`; the
membership test reads `self.__dict__`, an instance attribute access. -/
def dunderGetattrF (fuel : Nat) (d : Attrs) (name : String) :
    Except PyExc (Option Value) :=
  match getattributeF fuel d "__dict__" with
  | .error e => .error e
  | .ok _ => .ok ((d.find? (fun kv => kv.fst == name)).map (·.snd))

/-- `EnvBase.__contains__`: `item in self.__dict__`, where reading
`self.__dict__` is an instance attribute access through
`__getattribute__`. -/
def containsF (fuel : Nat) (d : Attrs) (name : String) : Except PyExc Bool :=
  match getattributeF fuel d "__dict__" with
  | .error e => .error e
  | .ok _ => .ok ((d.find? (fun kv => kv.fst == name)).isSome)

/-- `EnvBase.__getitem__`: `return self.__getattr__(item)`, where
looking up `self.__getattr__` is itself an instance attribute access
through `__getattribute__`. -/
def getitemF (fuel : Nat) (d : Attrs) (name : String) :
    Except PyExc (Option Value) :=
  match getattributeF fuel d "__getattr__" with
  | .error e => .error e
  | .ok _ => dunderGetattrF fuel d name

/-- `EnvBase(parsed=True)`: the dataclass-generated `__init__` calls
`self.__post_init__(parsed)` — an instance attribute access on a fresh
instance whose `__dict__` is still empty — and `__post_init__` then
builds `{k: self.as_int(k, v) for k, v in os.environ.items()}`. -/
def envbaseInitF (fuel : Nat) (environ : List (String × String)) :
    Except PyExc Attrs :=
  match getattributeF fuel [] "__post_init__" with
  | .error e => .error e
  | .ok _ =>
    match environ.mapM
        (fun kv => (EnvBase.as_int kv.fst kv.snd).map (fun v => (kv.fst, v))) with
    | .error e => .error e
    | .ok l => .ok l

/-! ## Spec-side definitions

For the refinement claims, a second set of definitions written from the
spec's words (§4.1 and §4.2), to be compared with the source-side
`parse_str` and `EnvBase.as_int`. -/

/-- Modelled from the spec's words (§4.1), for non-empty input, as
amended for C1: the six-step first-match-wins cascade — boolean
literal, URL marker, path shape, strict IP address, all-numeric
integer, fallback string — where the URL step ATTEMPTS URL
construction (the same `furl` fragment the code calls, raising
`ValueError` on malformed URLs) and the integer step attempts `int()`
(raising `ValueError` on numeric-but-not-decimal strings). -/
def specClassify (s : String) : Except PyExc Value :=
  if pyLowerStr s ∈ (["1", "true", "yes", "on"] : List String) then
    .ok (.bool true)
  else if pyLowerStr s ∈ (["0", "false", "no", "off"] : List String) then
    .ok (.bool false)
  else if strContains s "://" || strContains s "@" then
    match furlParse s with
    | some u => .ok (.url u)
    | none => .error .valueError
  else if (match s.data.head? with
           | some c => c = '/' || c = '~' || c = '.'
           | none => false) && !strContains s ":" then
    .ok (.path (pathParse s))
  else
    match ip_address s with
    | some a => .ok (.ip a)
    | none =>
      if pyIsnumeric s then
        match pyIntParse s with
        | some n => .ok (.int n)
        | none => .error .valueError
      else .ok (.str s)

/-! ## Path normalization lemmas -/

lemma splitSlash_ne_nil (l : List Char) : splitSlash l ≠ [] := by
  cases l with
  | nil => simp [splitSlash]
  | cons c rest => by_cases h : c = '/' <;> simp [splitSlash, h]

lemma splitSlash_shape (l : List Char) :
    ∃ q qs, splitSlash l = q :: qs := by
  cases hsp : splitSlash l with
  | nil => exact absurd hsp (splitSlash_ne_nil l)
  | cons a b => exact ⟨a, b, rfl⟩

lemma splitSlash_noSlash (l : List Char) :
    ∀ p ∈ splitSlash l, '/' ∉ p := by
  induction l with
  | nil =>
    intro p hp
    simp [splitSlash] at hp
    simp [hp]
  | cons c rest ih =>
    obtain ⟨q, qs, hq⟩ := splitSlash_shape rest
    intro p hp
    by_cases h : c = '/'
    · simp [splitSlash, h] at hp
      rcases hp with hp | hp
      · simp [hp]
      · exact ih p hp
    · simp [splitSlash, h, hq] at hp
      rcases hp with hp | hp
      · subst hp
        intro hmem
        rcases List.mem_cons.mp hmem with h1 | h1
        · exact h h1.symm
        · exact ih q (by simp [hq]) h1
      · exact ih p (by simp [hq, hp])

lemma splitSlash_eq_single {l : List Char} (h : ∀ c ∈ l, c ≠ '/') :
    splitSlash l = [l] := by
  induction l with
  | nil => rfl
  | cons c rest ih =>
    have hc : c ≠ '/' := h c (by simp)
    have ih' := ih (fun x hx => h x (by simp [hx]))
    simp [splitSlash, hc, ih']

lemma splitSlash_append {l : List Char} (rest : List Char)
    (h : ∀ c ∈ l, c ≠ '/') :
    splitSlash (l ++ '/' :: rest) = l :: splitSlash rest := by
  induction l with
  | nil => simp [splitSlash]
  | cons c l' ih =>
    have hc : c ≠ '/' := h c (by simp)
    have ih' := ih (fun x hx => h x (by simp [hx]))
    simp [splitSlash, hc, ih']

lemma splitSlash_joinSlash :
    ∀ (pieces : List (List Char)), pieces ≠ [] →
      (∀ p ∈ pieces, ∀ c ∈ p, c ≠ '/') →
      splitSlash (joinSlash pieces) = pieces := by
  intro pieces
  induction pieces with
  | nil => intro h; exact absurd rfl h
  | cons p qs ih =>
    intro _ hfree
    cases qs with
    | nil => exact splitSlash_eq_single (hfree p (by simp))
    | cons q rest =>
      have hj : joinSlash (p :: q :: rest) = p ++ '/' :: joinSlash (q :: rest) := rfl
      rw [hj, splitSlash_append _ (hfree p (by simp)),
        ih (by simp) (fun x hx => hfree x (by simp [hx]))]

lemma rootOf_head_ne {c : Char} (l : List Char) (h : c ≠ '/') :
    rootOf (c :: l) = 0 := by
  simp [rootOf, listStartsWith, h]

lemma rootOf_one {c : Char} (l : List Char) (h : c ≠ '/') :
    rootOf ('/' :: c :: l) = 1 := by
  simp [rootOf, listStartsWith, h]

lemma rootOf_two {c : Char} (l : List Char) (h : c ≠ '/') :
    rootOf ('/' :: '/' :: c :: l) = 2 := by
  simp [rootOf, listStartsWith, h]

/-- A path produced by `pathParse` has a root of at most two slashes and
only non-empty, non-`"."`, slash-free segments. -/
lemma pathParse_valid (s : String) :
    (pathParse s).root ≤ 2 ∧
      ∀ seg ∈ (pathParse s).segs,
        seg ≠ [] ∧ seg ≠ ['.'] ∧ ∀ c ∈ seg, c ≠ '/' := by
  constructor
  · show rootOf s.data ≤ 2
    unfold rootOf
    split
    · omega
    · split
      · omega
      · split <;> omega
  · intro seg hseg
    have hmem := List.mem_of_mem_filter hseg
    have hpred := List.of_mem_filter hseg
    simp only [Bool.and_eq_true, bne_iff_ne, ne_eq] at hpred
    refine ⟨hpred.1, hpred.2, ?_⟩
    intro c hc hcslash
    exact splitSlash_noSlash s.data seg hmem (hcslash ▸ hc)

/-- Reparsing the textual form of a well-formed `PyPath` recovers it. -/
lemma pathParse_pathToStr (p : PyPath) (hr : p.root ≤ 2)
    (hs : ∀ seg ∈ p.segs, seg ≠ [] ∧ seg ≠ ['.'] ∧ ∀ c ∈ seg, c ≠ '/') :
    pathParse (pathToStr p) = p := by
  obtain ⟨root, segs⟩ := p
  simp only at hr hs
  have hfilter : segs.filter (fun q => (q != []) && (q != ['.'])) = segs := by
    refine List.filter_eq_self.mpr ?_
    intro a ha
    have := hs a ha
    simp [this.1, this.2.1]
  cases segs with
  | nil =>
    interval_cases root
    · rfl
    · rfl
    · rfl
  | cons q qs =>
    have hq := hs q (by simp)
    obtain ⟨c, q', rfl⟩ : ∃ c q', q = c :: q' := by
      cases q with
      | nil => exact absurd rfl hq.1
      | cons a b => exact ⟨a, b, rfl⟩
    have hcne : c ≠ '/' := hq.2.2 c (by simp)
    have hsplit : splitSlash (joinSlash ((c :: q') :: qs)) = (c :: q') :: qs :=
      splitSlash_joinSlash _ (by simp) (fun x hx => (hs x hx).2.2)
    have hjoin : ∃ t, joinSlash ((c :: q') :: qs) = c :: t := by
      cases qs with
      | nil => exact ⟨q', rfl⟩
      | cons r rs => exact ⟨q' ++ '/' :: joinSlash (r :: rs), rfl⟩
    obtain ⟨t, ht⟩ := hjoin
    have hstr : (pathToStr ⟨root, (c :: q') :: qs⟩).data =
        List.replicate root '/' ++ joinSlash ((c :: q') :: qs) := by
      simp [pathToStr]
    interval_cases root
    · refine PyPath.ext ?_ ?_ <;>
        simp only [pathParse, hstr, List.replicate, List.nil_append]
      · rw [ht]; exact rootOf_head_ne t hcne
      · rw [hsplit, hfilter]
    · refine PyPath.ext ?_ ?_ <;>
        simp only [pathParse, hstr]
      · have : List.replicate 1 '/' ++ joinSlash ((c :: q') :: qs) =
            '/' :: c :: t := by simp [List.replicate, ht]
        rw [this]; exact rootOf_one t hcne
      · have : List.replicate 1 '/' ++ joinSlash ((c :: q') :: qs) =
            '/' :: joinSlash ((c :: q') :: qs) := by simp [List.replicate]
        rw [this]
        have : splitSlash ('/' :: joinSlash ((c :: q') :: qs)) =
            [] :: splitSlash (joinSlash ((c :: q') :: qs)) := by
          simp [splitSlash]
        rw [this, hsplit]
        simp [hfilter]
    · refine PyPath.ext ?_ ?_ <;>
        simp only [pathParse, hstr]
      · have : List.replicate 2 '/' ++ joinSlash ((c :: q') :: qs) =
            '/' :: '/' :: c :: t := by simp [List.replicate, ht]
        rw [this]; exact rootOf_two t hcne
      · have : List.replicate 2 '/' ++ joinSlash ((c :: q') :: qs) =
            '/' :: '/' :: joinSlash ((c :: q') :: qs) := by
          simp [List.replicate]
        rw [this]
        have h2 : splitSlash ('/' :: '/' :: joinSlash ((c :: q') :: qs)) =
            [] :: [] :: splitSlash (joinSlash ((c :: q') :: qs)) := by
          simp [splitSlash]
        rw [h2, hsplit]
        simp [hfilter]

/-- Text round-trip of classified paths, up to pathlib normalization:
reparsing the rendered text of a parsed path gives the same path. -/
lemma pathParse_roundtrip (s : String) :
    pathParse (pathToStr (pathParse s)) = pathParse s :=
  pathParse_pathToStr (pathParse s) (pathParse_valid s).1 (pathParse_valid s).2

/-- Modelled from the spec's words (§4.2): force the integer exactly
when the value is non-empty, the key matches the always-integer name
set or ends with one of the numeric suffixes, and the value is entirely
numeric; otherwise run the §4.1 cascade. -/
def specClassifyForKey (key value : String) : Except PyExc Value :=
  if value ≠ "" ∧
      (key ∈ ENV_PARSE_AS_INT_NAME ∨
        ENV_PARSE_AS_INT_SUFFIX.any (fun item => strEndsWith key item) = true) ∧
      pyIsnumeric value = true then
    match pyIntParse value with
    | some n => .ok (.int n)
    | none => .error .valueError
  else parse_str value

/-! ## Shared helper lemmas -/

lemma string_eq_empty_of_data {s : String} (h : s.data = []) : s = "" := by
  cases s
  simp_all

lemma string_head_of_ne {s : String} (hs : s ≠ "") :
    ∃ c cs, s.data = c :: cs := by
  cases h : s.data with
  | nil => exact absurd (string_eq_empty_of_data h) hs
  | cons a b => exact ⟨a, b, rfl⟩

lemma getattributeF_recursionError :
    ∀ (fuel : Nat) (d : Attrs) (name : String),
      getattributeF fuel d name = .error .recursionError := by
  intro fuel
  induction fuel with
  | zero => intro d name; rfl
  | succ f ih => intro d name; simp [getattributeF, ih]

/-! ## Claim theorems -/

/-- C1 counterexample: `"http://["` contains `"://"`, so the claimed
step 2 says it yields a URL value — but the program raises `ValueError`
there (furl's uncaught `urlsplit` bracket validation), so the cascade
as claimed does not hold on every non-empty string. -/
theorem claim_C1_counterexample :
    strContains "http://[" "://" = true ∧
    parse_str "http://[" = .error .valueError := by
  refine ⟨by decide, by decide⟩

/-- C1 amended: for every non-empty input string, `parse_str` evaluates
the six-step first-match-wins cascade of §4.1 where the URL step and
the integer step are construction ATTEMPTS that can raise `ValueError`
(malformed URL; numeric-but-not-decimal string), here stated as
agreement with the spec-side `specClassify`. -/
theorem claim_C1_cascade_amended (s : String) (hs : s ≠ "") :
    parse_str s = specClassify s := by
  obtain ⟨c, cs, hcs⟩ := string_head_of_ne hs
  unfold parse_str specClassify
  rw [hcs]
  simp only [List.head?]

/-- Witness for the amended C1 at the concrete input `"3"`. -/
theorem claim_C1_cascade_amended_witness :
    ("3" : String) ≠ "" ∧ parse_str "3" = specClassify "3" :=
  ⟨by decide, claim_C1_cascade_amended "3" (by decide)⟩

/-- C2: `EnvBase.as_int` returns the forced integer exactly when the
value is non-empty, the key is an always-integer name or ends with a
numeric suffix, and the value is entirely numeric; in every other case
it returns exactly what the plain cascade returns. -/
theorem claim_C2_as_int_refines_spec (key value : String) :
    EnvBase.as_int key value = specClassifyForKey key value := by
  unfold EnvBase.as_int specClassifyForKey
  by_cases hv : value = "" <;>
    by_cases hn : key ∈ ENV_PARSE_AS_INT_NAME <;>
    by_cases hs : ENV_PARSE_AS_INT_SUFFIX.any
      (fun item => strEndsWith key item) = true <;>
    by_cases hnum : pyIsnumeric value = true <;>
    simp [hv, hn, hs, hnum]

/-- C3: attribute-style, item-style, and membership-style lookup of an
absent name on an `EnvBase` snapshot do NOT return `None` without
raising — the `__getattribute__` override re-enters itself through
`hasattr`, so all three raise `RecursionError` at every recursion
depth (the code bug behind this claim). -/
theorem claim_C3_lookup_raises (fuel : Nat) (d : Attrs) (name : String) :
    getattributeF fuel d name = .error .recursionError ∧
    getitemF fuel d name = .error .recursionError ∧
    containsF fuel d name = .error .recursionError := by
  refine ⟨getattributeF_recursionError fuel d name, ?_, ?_⟩ <;>
    simp [getitemF, containsF, dunderGetattrF, getattributeF_recursionError]

/-- C4: `parse_str` is not total — the unguarded `data[0]` raises
`IndexError` on the empty string, furl's uncaught `urlsplit` validation
raises `ValueError` on `"http://["`, and `int()` raises `ValueError` on
the `str.isnumeric`-true Unicode string `"\u00bd"`. -/
theorem claim_C4_totality_fails :
    parse_str "" = .error .indexError ∧
    parse_str "http://[" = .error .valueError ∧
    parse_str "\u00bd" = .error .valueError := by
  refine ⟨by decide, by decide, by decide⟩

/-- C5: empty versus absent — `parse_str` on the empty string raises
`IndexError` rather than yielding the absent result, `parse_env` on a
variable set to the empty string returns the raw empty string (not the
absent result), and only an unset variable yields the absent result. -/
theorem claim_C5_empty_input :
    parse_str "" = .error .indexError ∧
    parse_env [("FOO", "")] "FOO" = .ok (some (.str "")) ∧
    parse_env [] "FOO" = .ok none := by
  refine ⟨by rfl, by rfl, by rfl⟩

/-- C6: an `EnvBase` snapshot cannot even be constructed — the
dataclass `__init__` calls `self.__post_init__(parsed)`, an instance
attribute access that the `__getattribute__` override turns into an
unbounded `hasattr` recursion, so construction raises `RecursionError`
for every environment and every recursion depth, before the process
environment is ever read. -/
theorem claim_C6_construction_raises (fuel : Nat)
    (environ : List (String × String)) :
    envbaseInitF fuel environ = .error .recursionError := by
  simp [envbaseInitF, getattributeF_recursionError]

/-- C8: any case variant of a truthy literal classifies to boolean
true, and any case variant of a falsy literal to boolean false. -/
theorem claim_C8_boolean_literals (s : String) :
    (pyLowerStr s ∈ (["1", "true", "yes", "on"] : List String) →
      parse_str s = .ok (.bool true)) ∧
    (pyLowerStr s ∈ (["0", "false", "no", "off"] : List String) →
      parse_str s = .ok (.bool false)) := by
  constructor
  · intro h
    unfold parse_str
    simp [h]
  · intro h
    have h1 : pyLowerStr s ∉ (["1", "true", "yes", "on"] : List String) := by
      simp only [List.mem_cons, List.not_mem_nil, or_false] at h ⊢
      rcases h with h | h | h | h <;> simp [h]
    unfold parse_str
    simp [h, h1]

/-- Witness for C8 at the concrete inputs `"TrUe"` and `"OFF"`. -/
theorem claim_C8_boolean_literals_witness :
    parse_str "TrUe" = .ok (.bool true) ∧ parse_str "OFF" = .ok (.bool false) :=
  ⟨(claim_C8_boolean_literals "TrUe").1 (by decide),
   (claim_C8_boolean_literals "OFF").2 (by decide)⟩

/-- C9: strings matching no specific cascade rule come back unchanged —
`"2.0"` stays the string `"2.0"`, `"/usr/share/man:"` stays the literal
string, and `"3"` classifies as the integer `3`. -/
theorem claim_C9_fallback_examples :
    parse_str "2.0" = .ok (.str "2.0") ∧
    parse_str "/usr/share/man:" = .ok (.str "/usr/share/man:") ∧
    parse_str "3" = .ok (.int 3) := by
  refine ⟨by decide, by decide, by decide⟩

/-- C10: a bare suffix word without the leading underscore never forces
integer interpretation — for the keys `"UID"`, `"PORT"`, `"ID"`,
`EnvBase.as_int` coincides with the plain cascade on every value (so
value `"1"` classifies as boolean true), while keys ending in `"_UID"`
or `"_PORT"` force value `"1"` to the integer `1`. -/
theorem claim_C10_bare_suffix_requires_underscore :
    (∀ v, EnvBase.as_int "UID" v = parse_str v) ∧
    (∀ v, EnvBase.as_int "PORT" v = parse_str v) ∧
    (∀ v, EnvBase.as_int "ID" v = parse_str v) ∧
    EnvBase.as_int "UID" "1" = .ok (.bool true) ∧
    EnvBase.as_int "X_UID" "1" = .ok (.int 1) ∧
    EnvBase.as_int "X_PORT" "1" = .ok (.int 1) := by
  refine ⟨?_, ?_, ?_, by rfl, by rfl, by rfl⟩
  · intro v
    have hn : ¬ ("UID" ∈ ENV_PARSE_AS_INT_NAME) := by decide
    have hc : ENV_PARSE_AS_INT_SUFFIX.any
        (fun item => strEndsWith "UID" item) = false := by decide
    unfold EnvBase.as_int
    by_cases hv : v = "" <;> simp [hv, hn, hc]
  · intro v
    have hn : ¬ ("PORT" ∈ ENV_PARSE_AS_INT_NAME) := by decide
    have hc : ENV_PARSE_AS_INT_SUFFIX.any
        (fun item => strEndsWith "PORT" item) = false := by decide
    unfold EnvBase.as_int
    by_cases hv : v = "" <;> simp [hv, hn, hc]
  · intro v
    have hn : ¬ ("ID" ∈ ENV_PARSE_AS_INT_NAME) := by decide
    have hc : ENV_PARSE_AS_INT_SUFFIX.any
        (fun item => strEndsWith "ID" item) = false := by decide
    unfold EnvBase.as_int
    by_cases hv : v = "" <;> simp [hv, hn, hc]

/-- C7 counterexample: the path-rule input `"./foo"` is classified as a
path, but converting the classified value back to text yields the
normalized `"foo"`, not the original `"./foo"` — the exact text
round-trip claimed fails. -/
theorem claim_C7_counterexample :
    parse_str "./foo" = .ok (.path (pathParse "./foo")) ∧
    pathToStr (pathParse "./foo") = "foo" ∧
    ("foo" : String) ≠ "./foo" := by
  refine ⟨by decide, by decide, by decide⟩

/-- C7 amended: for every string classified as a filesystem path under
rule 3, the classified value is the parsed path of the input, and the
round-trip holds at the path-value level — rendering the value to text
and reparsing yields the same path value (text is reproduced only up to
pathlib normalization). -/
theorem claim_C7_roundtrip (s : String) (p : PyPath)
    (h : parse_str s = .ok (.path p)) :
    p = pathParse s ∧ pathParse (pathToStr p) = p := by
  have hp : p = pathParse s := by
    unfold parse_str at h
    split at h
    · simp at h
    · split at h
      · simp at h
      · split at h
        · split at h <;> simp at h
        · split at h
          · simp at h
          · split at h
            · simp at h
              exact h.symm
            · split at h
              · simp at h
              · split at h
                · split at h <;> simp at h
                · simp at h
  subst hp
  exact ⟨rfl, pathParse_roundtrip s⟩

/-- Witness for the amended C7 at the concrete input `"~/foo"`. -/
theorem claim_C7_roundtrip_witness :
    parse_str "~/foo" = .ok (.path (pathParse "~/foo")) ∧
    pathParse (pathToStr (pathParse "~/foo")) = pathParse "~/foo" := by
  have h : parse_str "~/foo" = .ok (.path (pathParse "~/foo")) := by decide
  exact ⟨h, (claim_C7_roundtrip "~/foo" (pathParse "~/foo") h).2⟩
